import Mathlib

set_option maxRecDepth 4000

/-!
Shallow embedding of the DermatologyBE streaming RAG core:
`app/core/rate_limiter.py`, `app/core/websocket_manager.py` and
`app/services/chat_service.py`.  Python floats (timestamps, token counts,
similarity scores) are modelled as exact rationals, Python dicts as
association lists whose operations mirror dict lookup, item assignment
(update-in-place or append) and deletion.
-/

/-- Association-list lookup, mirroring Python `d.get(k)` / `d[k]`. -/
def alGet? {α : Type} (k : Nat) : List (Nat × α) → Option α
  | [] => none
  | (k', v) :: t => if k' = k then some v else alGet? k t

/-- Association-list store, mirroring Python `d[k] = v`: an existing key is
updated in place, a new key is appended (dicts preserve insertion order). -/
def alInsert {α : Type} (k : Nat) (v : α) : List (Nat × α) → List (Nat × α)
  | [] => [(k, v)]
  | (k', v') :: t => if k' = k then (k, v) :: t else (k', v') :: alInsert k v t

/-- Association-list deletion, mirroring Python `del d[k]` (and a no-op when
the key is absent). -/
def alErase {α : Type} (k : Nat) : List (Nat × α) → List (Nat × α)
  | [] => []
  | (k', v) :: t => if k' = k then alErase k t else (k', v) :: alErase k t

theorem alGet?_alInsert_self {α : Type} (k : Nat) (v : α) (l : List (Nat × α)) :
    alGet? k (alInsert k v l) = some v := by
  induction l with
  | nil => simp [alInsert, alGet?]
  | cons p t ih =>
      obtain ⟨k', v'⟩ := p
      by_cases h : k' = k
      · simp [alInsert, alGet?, h]
      · simp [alInsert, alGet?, h, ih]

theorem alGet?_alInsert_ne {α : Type} {k j : Nat} (v : α) (l : List (Nat × α))
    (h : j ≠ k) : alGet? j (alInsert k v l) = alGet? j l := by
  induction l with
  | nil => simp [alInsert, alGet?, Ne.symm h]
  | cons p t ih =>
      obtain ⟨k', v'⟩ := p
      by_cases hk : k' = k
      · subst hk
        simp [alInsert, alGet?, Ne.symm h]
      · simp only [alInsert, if_neg hk, alGet?]
        by_cases hj : k' = j
        · simp [hj]
        · simp [hj, ih]

theorem length_alInsert_le {α : Type} (k : Nat) (v : α) (l : List (Nat × α)) :
    (alInsert k v l).length ≤ l.length + 1 := by
  induction l with
  | nil => simp [alInsert]
  | cons p t ih =>
      obtain ⟨k', v'⟩ := p
      by_cases h : k' = k
      · simp [alInsert, h]
      · simpa [alInsert, h] using Nat.succ_le_succ ih

theorem length_alErase_le {α : Type} (k : Nat) (l : List (Nat × α)) :
    (alErase k l).length ≤ l.length := by
  induction l with
  | nil => simp [alErase]
  | cons p t ih =>
      obtain ⟨k', v'⟩ := p
      by_cases h : k' = k
      · simp only [alErase, if_pos h, List.length_cons]
        exact Nat.le_succ_of_le ih
      · simpa [alErase, h] using Nat.succ_le_succ ih

theorem alGet?_alErase_self {α : Type} (k : Nat) (l : List (Nat × α)) :
    alGet? k (alErase k l) = none := by
  induction l with
  | nil => simp [alErase, alGet?]
  | cons p t ih =>
      obtain ⟨k', v'⟩ := p
      by_cases h : k' = k
      · simpa [alErase, h] using ih
      · simpa [alErase, alGet?, h] using ih

theorem alGet?_alErase_ne {α : Type} {k j : Nat} (l : List (Nat × α)) (h : j ≠ k) :
    alGet? j (alErase k l) = alGet? j l := by
  induction l with
  | nil => simp [alErase]
  | cons p t ih =>
      obtain ⟨k', v'⟩ := p
      by_cases hk : k' = k
      · subst hk
        simpa [alErase, alGet?, Ne.symm h] using ih
      · simp only [alErase, if_neg hk, alGet?]
        by_cases hj : k' = j
        · simp [hj]
        · simp [hj, ih]

theorem alErase_of_alGet?_eq_none {α : Type} {k : Nat} {l : List (Nat × α)}
    (h : alGet? k l = none) : alErase k l = l := by
  induction l with
  | nil => rfl
  | cons p t ih =>
      obtain ⟨k', v'⟩ := p
      by_cases hk : k' = k
      · simp [alGet?, hk] at h
      · have h' : alGet? k t = none := by simpa [alGet?, hk] using h
        simp [alErase, hk, ih h']

/-! ## `app/core/rate_limiter.py` -/

/-- State of `TokenBucket` (`rate_limiter.py`, lines 14-58): refill rate in
tokens/second, maximum capacity, current token count, last refill time. -/
structure TokenBucket where
  rate : ℚ
  capacity : ℚ
  tokens : ℚ
  lastUpdate : ℚ
deriving Repr, DecidableEq

/-- `TokenBucket.__init__`: a fresh bucket starts full (`self.tokens = capacity`)
with `last_update = time.time()` (passed in as `now`). -/
def TokenBucket.init (rate capacity now : ℚ) : TokenBucket :=
  { rate := rate, capacity := capacity, tokens := capacity, lastUpdate := now }

/-- `TokenBucket.consume` (lines 32-52): refill
`tokens = min(capacity, tokens + time_passed * rate)`, set `last_update = now`,
then subtract `toks` and answer `true` iff at least `toks` tokens are present. -/
def TokenBucket.consume (b : TokenBucket) (now toks : ℚ) : Bool × TokenBucket :=
  let timePassed := now - b.lastUpdate
  let t := min b.capacity (b.tokens + timePassed * b.rate)
  if toks ≤ t then
    (true, { b with tokens := t - toks, lastUpdate := now })
  else
    (false, { b with tokens := t, lastUpdate := now })

/-- `TokenBucket.get_tokens` (lines 54-58): current token count after a virtual
refill at time `now` (does not mutate the bucket). -/
def TokenBucket.getTokens (b : TokenBucket) (now : ℚ) : ℚ :=
  min b.capacity (b.tokens + (now - b.lastUpdate) * b.rate)

/-- State of `RateLimiter` (lines 61-124): configuration plus the per-user
bucket dict `self.buckets`. -/
structure RateLimiter where
  messagesPerMinute : ℚ
  burstSize : ℕ
  rate : ℚ
  capacity : ℚ
  buckets : List (Nat × TokenBucket)
deriving Repr, DecidableEq

/-- `RateLimiter.__init__`: `rate = messages_per_minute / 60.0`,
`capacity = burst_size`, empty bucket dict. -/
def RateLimiter.init (messagesPerMinute : ℚ) (burstSize : ℕ) : RateLimiter :=
  { messagesPerMinute := messagesPerMinute
    burstSize := burstSize
    rate := messagesPerMinute / 60
    capacity := (burstSize : ℚ)
    buckets := [] }

/-- `RateLimiter.check_rate_limit` (lines 93-124): lazily create a full bucket
for a new user, try to consume one token; on success return `(true, 0.0)`,
otherwise `(false, (1 - bucket.get_tokens()) / rate)`.  Both clock reads of the
call are modelled by the single instant `now`. -/
def RateLimiter.checkRateLimit (rl : RateLimiter) (userId : Nat) (now : ℚ) :
    (Bool × ℚ) × RateLimiter :=
  let bucket :=
    match alGet? userId rl.buckets with
    | some b => b
    | none => TokenBucket.init rl.rate rl.capacity now
  let r := bucket.consume now 1
  if r.1 then
    ((true, 0), { rl with buckets := alInsert userId r.2 rl.buckets })
  else
    let tokensNeeded := 1 - r.2.getTokens now
    let retryAfter := tokensNeeded / rl.rate
    ((false, retryAfter), { rl with buckets := alInsert userId r.2 rl.buckets })

/-- Iterate `check_rate_limit` `n` times for the same user at the same instant,
collecting the `allowed` flags in order. -/
def RateLimiter.runChecks (rl : RateLimiter) (userId : Nat) (now : ℚ) :
    ℕ → List Bool × RateLimiter
  | 0 => ([], rl)
  | n + 1 =>
      let r := rl.checkRateLimit userId now
      let rest := RateLimiter.runChecks r.2 userId now n
      (r.1.1 :: rest.1, rest.2)

theorem RateLimiter.runChecks_succ (rl : RateLimiter) (u : Nat) (now : ℚ) (n : ℕ) :
    rl.runChecks u now (n + 1)
      = ((rl.checkRateLimit u now).1.1
            :: ((rl.checkRateLimit u now).2.runChecks u now n).1,
         ((rl.checkRateLimit u now).2.runChecks u now n).2) := rfl

theorem TokenBucket.consume_at_lastUpdate (b : TokenBucket) (h : b.tokens ≤ b.capacity) :
    b.consume b.lastUpdate 1 =
      if 1 ≤ b.tokens then (true, { b with tokens := b.tokens - 1 }) else (false, b) := by
  simp only [TokenBucket.consume, sub_self, zero_mul, add_zero, min_eq_right h]

theorem RateLimiter.checkRateLimit_at_lastUpdate (rl : RateLimiter) (u : Nat)
    (b : TokenBucket) (hb : alGet? u rl.buckets = some b) (h : b.tokens ≤ b.capacity) :
    rl.checkRateLimit u b.lastUpdate =
      if 1 ≤ b.tokens then
        ((true, 0), { rl with buckets := alInsert u { b with tokens := b.tokens - 1 } rl.buckets })
      else
        ((false, (1 - b.tokens) / rl.rate), { rl with buckets := alInsert u b rl.buckets }) := by
  simp only [RateLimiter.checkRateLimit, hb, TokenBucket.consume_at_lastUpdate b h]
  by_cases hc : (1 : ℚ) ≤ b.tokens
  · simp [hc]
  · simp [hc, TokenBucket.getTokens, min_eq_right h]

/-- A rate limiter whose bucket dict holds a single bucket for `u` with an
integral token count `t`, refilled at instant `now`.  This is the shape of the
state after the first `check_rate_limit` call from a fresh limiter. -/
def rlSingle (mpm : ℚ) (burst : ℕ) (u : Nat) (now : ℚ) (t : ℕ) : RateLimiter :=
  { messagesPerMinute := mpm, burstSize := burst, rate := mpm / 60,
    capacity := (burst : ℚ),
    buckets := [(u, { rate := mpm / 60, capacity := (burst : ℚ),
                      tokens := (t : ℚ), lastUpdate := now })] }

theorem runChecks_rlSingle (mpm : ℚ) (burst : ℕ) (u : Nat) (now : ℚ) :
    ∀ (n t : ℕ), t ≤ burst →
      ((rlSingle mpm burst u now t).runChecks u now n).1
        = List.replicate (min t n) true ++ List.replicate (n - min t n) false := by
  intro n
  induction n with
  | zero => intro t ht; simp [RateLimiter.runChecks]
  | succ n ih =>
      intro t ht
      have hb : alGet? u (rlSingle mpm burst u now t).buckets
          = some { rate := mpm / 60, capacity := (burst : ℚ),
                   tokens := (t : ℚ), lastUpdate := now } := by
        simp [rlSingle, alGet?]
      have hc : ((t : ℚ)) ≤ (burst : ℚ) := by exact_mod_cast ht
      have hchk := RateLimiter.checkRateLimit_at_lastUpdate _ u _ hb hc
      by_cases h1 : 1 ≤ t
      · have h1q : (1 : ℚ) ≤ (t : ℚ) := by exact_mod_cast h1
        have hcast : (t : ℚ) - 1 = ((t - 1 : ℕ) : ℚ) := by
          rw [Nat.cast_sub h1, Nat.cast_one]
        have hstate :
            ((rlSingle mpm burst u now t).checkRateLimit u now).2
              = rlSingle mpm burst u now (t - 1) := by
          rw [hchk, if_pos h1q]
          simp [rlSingle, alInsert, hcast]
        have hflag : ((rlSingle mpm burst u now t).checkRateLimit u now).1.1 = true := by
          rw [hchk, if_pos h1q]
        have hmin : min t (n + 1) = min (t - 1) n + 1 := by omega
        have hsub : n + 1 - (min (t - 1) n + 1) = n - min (t - 1) n := by omega
        simp only [RateLimiter.runChecks, hstate, hflag,
          ih (t - 1) (Nat.le_trans (Nat.sub_le t 1) ht), hmin, hsub,
          List.replicate_succ, List.cons_append]
      · have ht0 : t = 0 := by omega
        subst ht0
        have h1q : ¬ (1 : ℚ) ≤ ((0 : ℕ) : ℚ) := by norm_num
        have hstate :
            ((rlSingle mpm burst u now 0).checkRateLimit u now).2
              = rlSingle mpm burst u now 0 := by
          rw [hchk, if_neg h1q]
          simp [rlSingle, alInsert]
        have hflag : ((rlSingle mpm burst u now 0).checkRateLimit u now).1.1 = false := by
          rw [hchk, if_neg h1q]
        simp only [RateLimiter.runChecks, hstate, hflag, ih 0 (Nat.zero_le _)]
        simp [List.replicate_succ]

theorem runChecks_fresh (mpm : ℚ) (burst : ℕ) (u : Nat) (now : ℚ) :
    ((RateLimiter.init mpm burst).runChecks u now (burst + 1)).1
      = List.replicate burst true ++ [false] := by
  by_cases h1 : 1 ≤ burst
  · obtain ⟨m, rfl⟩ : ∃ m, burst = m + 1 := ⟨burst - 1, by omega⟩
    have h1q : (1 : ℚ) ≤ ((m + 1 : ℕ) : ℚ) := by exact_mod_cast h1
    have hcast : ((m + 1 : ℕ) : ℚ) - 1 = (m : ℚ) := by push_cast; ring
    have hstep : (RateLimiter.init mpm (m + 1)).checkRateLimit u now
        = ((true, 0), rlSingle mpm (m + 1) u now m) := by
      simp only [RateLimiter.checkRateLimit, RateLimiter.init, alGet?, TokenBucket.init,
        TokenBucket.consume, sub_self, zero_mul, add_zero, min_self]
      simp [h1q, rlSingle, alInsert, hcast]
    have hrest := runChecks_rlSingle mpm (m + 1) u now (m + 1) m (Nat.le_succ m)
    have hmin : min m (m + 1) = m := by omega
    have hsub : m + 1 - min m (m + 1) = 1 := by omega
    rw [RateLimiter.runChecks_succ]
    simp only [hstep, hrest, hmin, hsub]
    simp [List.replicate_succ]
  · have h0 : burst = 0 := by omega
    subst h0
    rw [RateLimiter.runChecks_succ]
    simp only [RateLimiter.runChecks, RateLimiter.checkRateLimit, RateLimiter.init, alGet?,
      TokenBucket.init, TokenBucket.consume, sub_self, zero_mul, add_zero, min_self]
    simp [show ¬ (1 : ℚ) ≤ 0 by norm_num]

/-- Claim C1: a `TokenBucket.consume` step keeps the token count within
`[0, capacity]` (refill is capped at capacity, a token is subtracted only when
at least one is available), and on a fresh `RateLimiter` `burstSize + 1`
`check_rate_limit` calls with zero elapsed time between them are allowed
exactly `burstSize` times, the single rejection being the last call. -/
theorem rateLimiter_token_bounds_and_burst
    (b : TokenBucket) (now : ℚ) (h0 : 0 ≤ b.tokens) (h1 : b.tokens ≤ b.capacity)
    (h2 : b.lastUpdate ≤ now) (h3 : 0 ≤ b.rate)
    (mpm : ℚ) (burst : ℕ) (u : Nat) (t0 : ℚ) :
    (0 ≤ (b.consume now 1).2.tokens ∧ (b.consume now 1).2.tokens ≤ b.capacity) ∧
    ((RateLimiter.init mpm burst).runChecks u t0 (burst + 1)).1
      = List.replicate burst true ++ [false] := by
  constructor
  · have hre : 0 ≤ min b.capacity (b.tokens + (now - b.lastUpdate) * b.rate) :=
      le_min (le_trans h0 h1)
        (add_nonneg h0 (mul_nonneg (sub_nonneg.mpr h2) h3))
    have hle : min b.capacity (b.tokens + (now - b.lastUpdate) * b.rate) ≤ b.capacity :=
      min_le_left _ _
    by_cases hc : (1 : ℚ) ≤ min b.capacity (b.tokens + (now - b.lastUpdate) * b.rate)
    · constructor
      · simp only [TokenBucket.consume, if_pos hc]
        show 0 ≤ min b.capacity (b.tokens + (now - b.lastUpdate) * b.rate) - 1
        linarith
      · simp only [TokenBucket.consume, if_pos hc]
        show min b.capacity (b.tokens + (now - b.lastUpdate) * b.rate) - 1 ≤ b.capacity
        linarith
    · constructor
      · simp only [TokenBucket.consume, if_neg hc]
        exact hre
      · simp only [TokenBucket.consume, if_neg hc]
        exact hle
  · exact runChecks_fresh mpm burst u t0

/-- Witness for C1 at a concrete bucket (rate 1/3, capacity 5, 2 tokens,
refilled at time 0, consumed at time 3) and the concrete configured limiter
(20 messages/minute, burst 5). -/
theorem rateLimiter_token_bounds_and_burst_witness :
    (0 ≤ ((⟨1/3, 5, 2, 0⟩ : TokenBucket).consume 3 1).2.tokens ∧
      ((⟨1/3, 5, 2, 0⟩ : TokenBucket).consume 3 1).2.tokens ≤
        (⟨1/3, 5, 2, 0⟩ : TokenBucket).capacity) ∧
    ((RateLimiter.init 20 5).runChecks 1 0 (5 + 1)).1
      = List.replicate 5 true ++ [false] :=
  rateLimiter_token_bounds_and_burst ⟨1/3, 5, 2, 0⟩ 3 (by norm_num) (by norm_num)
    (by norm_num) (by norm_num) 20 5 1 0

/-- Claim C10: for an identity with no existing bucket, the first
`check_rate_limit` call returns `(True, 0.0)` whenever `burstSize ≥ 1`,
because the bucket is created lazily holding `capacity = burst_size` tokens. -/
theorem rateLimiter_first_call_allowed
    (rl : RateLimiter) (u : Nat) (now : ℚ)
    (hfresh : alGet? u rl.buckets = none)
    (hcap : rl.capacity = (rl.burstSize : ℚ))
    (hburst : 1 ≤ rl.burstSize) :
    (rl.checkRateLimit u now).1 = (true, 0) := by
  have h1q : (1 : ℚ) ≤ rl.capacity := by
    rw [hcap]
    exact_mod_cast hburst
  have hcons := TokenBucket.consume_at_lastUpdate
    (TokenBucket.init rl.rate rl.capacity now) (le_refl _)
  simp only [RateLimiter.checkRateLimit, hfresh]
  rw [show (TokenBucket.init rl.rate rl.capacity now).lastUpdate = now from rfl] at hcons
  rw [hcons, if_pos (show (1:ℚ) ≤ (TokenBucket.init rl.rate rl.capacity now).tokens from h1q)]
  simp

/-- Witness for C10: the very first call on the configured limiter
(20 messages/minute, burst 5) is allowed with zero retry delay. -/
theorem rateLimiter_first_call_allowed_witness :
    ((RateLimiter.init 20 5).checkRateLimit 42 7).1 = (true, 0) :=
  rateLimiter_first_call_allowed (RateLimiter.init 20 5) 42 7 rfl rfl (by decide)

/-! ## `app/core/websocket_manager.py` -/

/-- State of `ConnectionManager` (`websocket_manager.py`, lines 17-107):
configuration plus the two tracking dicts
`self.active_connections : {user_id: {websocket: last_activity_time}}` and
`self.websocket_to_user : {websocket: user_id}`.  WebSocket handles are
modelled as naturals. -/
structure ConnectionManager where
  heartbeatInterval : ℚ
  connectionTimeout : ℚ
  maxConnectionsPerUser : ℕ
  activeConnections : List (Nat × List (Nat × ℚ))
  websocketToUser : List (Nat × Nat)
deriving Repr, DecidableEq

/-- `ConnectionManager.__init__` with empty tracking dicts. -/
def ConnectionManager.init (heartbeatInterval connectionTimeout : ℚ)
    (maxConnectionsPerUser : ℕ) : ConnectionManager :=
  { heartbeatInterval := heartbeatInterval
    connectionTimeout := connectionTimeout
    maxConnectionsPerUser := maxConnectionsPerUser
    activeConnections := []
    websocketToUser := [] }

/-- `ConnectionManager.connect` (lines 51-85): reject with `False` when the
identity already holds `max_connections_per_user` entries, otherwise record
the connection in both dicts with the current timestamp and accept. -/
def ConnectionManager.connect (cm : ConnectionManager) (ws userId : Nat) (now : ℚ) :
    Bool × ConnectionManager :=
  match alGet? userId cm.activeConnections with
  | some conns =>
      if cm.maxConnectionsPerUser ≤ conns.length then
        (false, cm)
      else
        (true, { cm with
          activeConnections := alInsert userId (alInsert ws now conns) cm.activeConnections,
          websocketToUser := alInsert ws userId cm.websocketToUser })
  | none =>
      (true, { cm with
        activeConnections := alInsert userId (alInsert ws now []) cm.activeConnections,
        websocketToUser := alInsert ws userId cm.websocketToUser })

/-- The `active_connections` dict after `disconnect` (lines 94-104): look the
user up via `websocket_to_user` — the Python guard `if user_id and user_id in
self.active_connections:` treats a looked-up `user_id` of `0` as falsy — then
delete the connection entry and drop the user key once its dict is empty. -/
def ConnectionManager.disconnectActive (cm : ConnectionManager) (ws : Nat) :
    List (Nat × List (Nat × ℚ)) :=
  match alGet? ws cm.websocketToUser with
  | some userId =>
      if userId ≠ 0 then
        match alGet? userId cm.activeConnections with
        | some conns =>
            if conns.any (fun p => p.1 = ws) then
              if alErase ws conns = [] then alErase userId cm.activeConnections
              else alInsert userId (alErase ws conns) cm.activeConnections
            else cm.activeConnections
        | none => cm.activeConnections
      else cm.activeConnections
  | none => cm.activeConnections

/-- `ConnectionManager.disconnect` (lines 87-107): update `active_connections`
per `disconnectActive`, then unconditionally drop the websocket from
`websocket_to_user` (lines 106-107). -/
def ConnectionManager.disconnect (cm : ConnectionManager) (ws : Nat) : ConnectionManager :=
  { cm with
    activeConnections := cm.disconnectActive ws,
    websocketToUser := alErase ws cm.websocketToUser }

/-- `ConnectionManager.get_user_connections` (lines 122-134). -/
def ConnectionManager.getUserConnections (cm : ConnectionManager) (userId : Nat) : ℕ :=
  match alGet? userId cm.activeConnections with
  | some conns => conns.length
  | none => 0

/-- One registry operation: a connection attempt or a disconnect. -/
inductive CMOp where
  | connect (ws userId : Nat) (now : ℚ)
  | disconnect (ws : Nat)
deriving Repr, DecidableEq

/-- Apply one operation to the registry (the Bool result of `connect` is
discarded; a rejected attempt leaves the state unchanged). -/
def CMOp.apply (cm : ConnectionManager) : CMOp → ConnectionManager
  | CMOp.connect ws userId now => (cm.connect ws userId now).2
  | CMOp.disconnect ws => cm.disconnect ws

/-- Run a sequence of registry operations from a given state. -/
def ConnectionManager.runOps (cm : ConnectionManager) (ops : List CMOp) : ConnectionManager :=
  ops.foldl CMOp.apply cm

theorem ConnectionManager.connect_max (cm : ConnectionManager) (ws userId : Nat) (now : ℚ) :
    (cm.connect ws userId now).2.maxConnectionsPerUser = cm.maxConnectionsPerUser := by
  cases halg : alGet? userId cm.activeConnections with
  | none => simp [ConnectionManager.connect, halg]
  | some conns =>
      by_cases h : cm.maxConnectionsPerUser ≤ conns.length
      · simp [ConnectionManager.connect, halg, h]
      · simp [ConnectionManager.connect, halg, h]

theorem ConnectionManager.connect_count_le (cm : ConnectionManager) (ws userId : Nat)
    (now : ℚ) (hmax : 1 ≤ cm.maxConnectionsPerUser)
    (hP : ∀ v, cm.getUserConnections v ≤ cm.maxConnectionsPerUser) (v : Nat) :
    (cm.connect ws userId now).2.getUserConnections v ≤ cm.maxConnectionsPerUser := by
  cases halg : alGet? userId cm.activeConnections with
  | none =>
      simp only [ConnectionManager.connect, halg, ConnectionManager.getUserConnections]
      by_cases hv : v = userId
      · subst hv
        rw [alGet?_alInsert_self]
        simpa [alInsert] using hmax
      · rw [alGet?_alInsert_ne _ _ hv]
        simpa only [ConnectionManager.getUserConnections] using hP v
  | some conns =>
      by_cases h : cm.maxConnectionsPerUser ≤ conns.length
      · simpa only [ConnectionManager.connect, halg, h, if_true] using hP v
      · simp only [ConnectionManager.connect, halg, h, if_false,
          ConnectionManager.getUserConnections]
        by_cases hv : v = userId
        · subst hv
          have hlen := length_alInsert_le ws now conns
          simp only [alGet?_alInsert_self]
          omega
        · rw [alGet?_alInsert_ne _ _ hv]
          simpa only [ConnectionManager.getUserConnections] using hP v

theorem ConnectionManager.count_of_active (cm : ConnectionManager) (ws : Nat)
    (ac : List (Nat × List (Nat × ℚ))) (hd : cm.disconnectActive ws = ac) (v : Nat) :
    (cm.disconnect ws).getUserConnections v
      = match alGet? v ac with
        | some conns => conns.length
        | none => 0 := by
  simp only [ConnectionManager.disconnect, ConnectionManager.getUserConnections, hd]

theorem ConnectionManager.disconnect_count_le (cm : ConnectionManager) (ws : Nat)
    (hP : ∀ v, cm.getUserConnections v ≤ cm.maxConnectionsPerUser) (v : Nat) :
    (cm.disconnect ws).getUserConnections v ≤ cm.maxConnectionsPerUser := by
  cases h1 : alGet? ws cm.websocketToUser with
  | none =>
      rw [ConnectionManager.count_of_active cm ws cm.activeConnections
        (by simp [ConnectionManager.disconnectActive, h1]) v]
      exact hP v
  | some userId =>
      by_cases h0 : userId = 0
      · rw [ConnectionManager.count_of_active cm ws cm.activeConnections
          (by simp [ConnectionManager.disconnectActive, h1, h0]) v]
        exact hP v
      · cases h2 : alGet? userId cm.activeConnections with
        | none =>
            rw [ConnectionManager.count_of_active cm ws cm.activeConnections
              (by simp [ConnectionManager.disconnectActive, h1, h0, h2]) v]
            exact hP v
        | some conns =>
            by_cases h3 : conns.any (fun p => p.1 = ws)
            · by_cases h4 : alErase ws conns = []
              · rw [ConnectionManager.count_of_active cm ws
                  (alErase userId cm.activeConnections)
                  (by simp [ConnectionManager.disconnectActive, h1, h0, h2, h3, h4]) v]
                by_cases hv : v = userId
                · subst hv
                  simp only [alGet?_alErase_self]
                  exact Nat.zero_le _
                · rw [alGet?_alErase_ne _ hv]
                  exact hP v
              · rw [ConnectionManager.count_of_active cm ws
                  (alInsert userId (alErase ws conns) cm.activeConnections)
                  (by simp [ConnectionManager.disconnectActive, h1, h0, h2, h3, h4]) v]
                by_cases hv : v = userId
                · subst hv
                  have hle : (alErase ws conns).length ≤ conns.length :=
                    length_alErase_le ws conns
                  have hcount : cm.getUserConnections v = conns.length := by
                    simp [ConnectionManager.getUserConnections, h2]
                  have hPv := hP v
                  simp only [alGet?_alInsert_self]
                  omega
                · rw [alGet?_alInsert_ne _ _ hv]
                  exact hP v
            · rw [ConnectionManager.count_of_active cm ws cm.activeConnections
                (by simp [ConnectionManager.disconnectActive, h1, h0, h2, h3]) v]
              exact hP v

theorem ConnectionManager.runOps_max (cm : ConnectionManager) (ops : List CMOp) :
    (cm.runOps ops).maxConnectionsPerUser = cm.maxConnectionsPerUser := by
  induction ops generalizing cm with
  | nil => rfl
  | cons op rest ih =>
      cases op with
      | connect ws userId now =>
          calc ((cm.connect ws userId now).2.runOps rest).maxConnectionsPerUser
              = (cm.connect ws userId now).2.maxConnectionsPerUser := ih _
            _ = cm.maxConnectionsPerUser := ConnectionManager.connect_max cm ws userId now
      | disconnect ws => exact ih _

theorem ConnectionManager.runOps_count_le (cm : ConnectionManager) (ops : List CMOp)
    (hmax : 1 ≤ cm.maxConnectionsPerUser)
    (hP : ∀ v, cm.getUserConnections v ≤ cm.maxConnectionsPerUser) (v : Nat) :
    (cm.runOps ops).getUserConnections v ≤ cm.maxConnectionsPerUser := by
  induction ops generalizing cm with
  | nil => exact hP v
  | cons op rest ih =>
      cases op with
      | connect ws userId now =>
          have hmax' : 1 ≤ (cm.connect ws userId now).2.maxConnectionsPerUser := by
            rw [ConnectionManager.connect_max]; exact hmax
          have hP' : ∀ w, (cm.connect ws userId now).2.getUserConnections w
              ≤ (cm.connect ws userId now).2.maxConnectionsPerUser := by
            intro w
            rw [ConnectionManager.connect_max]
            exact ConnectionManager.connect_count_le cm ws userId now hmax hP w
          have := ih _ hmax' hP'
          rwa [ConnectionManager.connect_max] at this
      | disconnect ws =>
          exact ih _ hmax (fun w => ConnectionManager.disconnect_count_le cm ws hP w)

theorem ConnectionManager.connect_rejects_at_cap (cm : ConnectionManager) (ws uid : Nat)
    (now : ℚ) (hmax : 1 ≤ cm.maxConnectionsPerUser)
    (hcap : cm.maxConnectionsPerUser ≤ cm.getUserConnections uid) :
    cm.connect ws uid now = (false, cm) := by
  cases halg : alGet? uid cm.activeConnections with
  | none =>
      have h0 : cm.getUserConnections uid = 0 := by
        simp [ConnectionManager.getUserConnections, halg]
      omega
  | some conns =>
      have hlen : cm.getUserConnections uid = conns.length := by
        simp [ConnectionManager.getUserConnections, halg]
      have hge : cm.maxConnectionsPerUser ≤ conns.length := by omega
      simp [ConnectionManager.connect, halg, hge]

/-- Claim C2: starting from a fresh registry, no sequence of
connect/disconnect operations ever brings an identity above
`max_connections_per_user` live connections (for any positive cap), and a
`connect` call for an identity already at the cap returns `False` and leaves
the registry completely unchanged. -/
theorem connectionManager_cap_invariant (hb ct : ℚ) (maxPer : ℕ) (hmax : 1 ≤ maxPer)
    (ops : List CMOp) (u ws uid : Nat) (now : ℚ) :
    ((ConnectionManager.init hb ct maxPer).runOps ops).getUserConnections u ≤ maxPer ∧
    (maxPer ≤ ((ConnectionManager.init hb ct maxPer).runOps ops).getUserConnections uid →
      ((ConnectionManager.init hb ct maxPer).runOps ops).connect ws uid now
        = (false, (ConnectionManager.init hb ct maxPer).runOps ops)) := by
  have hinit : ∀ v, (ConnectionManager.init hb ct maxPer).getUserConnections v
      ≤ (ConnectionManager.init hb ct maxPer).maxConnectionsPerUser := by
    intro v
    simp [ConnectionManager.getUserConnections, ConnectionManager.init, alGet?]
  have hmaxS : ((ConnectionManager.init hb ct maxPer).runOps ops).maxConnectionsPerUser
      = maxPer := ConnectionManager.runOps_max _ ops
  constructor
  · exact ConnectionManager.runOps_count_le _ ops hmax hinit u
  · intro hcap
    exact ConnectionManager.connect_rejects_at_cap _ ws uid now
      (by rw [hmaxS]; exact hmax) (by rw [hmaxS]; exact hcap)

/-- Witness for C2: with cap 3, identity 7 opens three connections; the
fourth attempt is rejected and the registry is unchanged. -/
theorem connectionManager_cap_invariant_witness :
    ((ConnectionManager.init 30 60 3).runOps
        [CMOp.connect 1 7 0, CMOp.connect 2 7 0, CMOp.connect 3 7 0]).getUserConnections 7
      ≤ 3 ∧
    ((ConnectionManager.init 30 60 3).runOps
        [CMOp.connect 1 7 0, CMOp.connect 2 7 0, CMOp.connect 3 7 0]).connect 4 7 1
      = (false, (ConnectionManager.init 30 60 3).runOps
          [CMOp.connect 1 7 0, CMOp.connect 2 7 0, CMOp.connect 3 7 0]) :=
  ⟨(connectionManager_cap_invariant 30 60 3 (by decide)
      [CMOp.connect 1 7 0, CMOp.connect 2 7 0, CMOp.connect 3 7 0] 7 4 7 1).1,
   (connectionManager_cap_invariant 30 60 3 (by decide)
      [CMOp.connect 1 7 0, CMOp.connect 2 7 0, CMOp.connect 3 7 0] 7 4 7 1).2 (by decide)⟩

theorem ConnectionManager.disconnect_noop (cm : ConnectionManager) (ws : Nat)
    (h : alGet? ws cm.websocketToUser = none) : cm.disconnect ws = cm := by
  have ha : cm.disconnectActive ws = cm.activeConnections := by
    simp [ConnectionManager.disconnectActive, h]
  have hw : alErase ws cm.websocketToUser = cm.websocketToUser :=
    alErase_of_alGet?_eq_none h
  cases cm
  simp_all [ConnectionManager.disconnect]

/-- Claim C8: `disconnect` is idempotent — a second call on the same
connection leaves the registry exactly as the first call did — and a call on
a connection absent from the registry changes nothing (and, being a total
function, raises no error). -/
theorem disconnect_idempotent (cm : ConnectionManager) (ws : Nat) :
    (cm.disconnect ws).disconnect ws = cm.disconnect ws ∧
    (alGet? ws cm.websocketToUser = none → cm.disconnect ws = cm) := by
  constructor
  · apply ConnectionManager.disconnect_noop
    show alGet? ws (alErase ws cm.websocketToUser) = none
    exact alGet?_alErase_self ws cm.websocketToUser
  · exact ConnectionManager.disconnect_noop cm ws

/-- Witness for C8 on a concrete registry holding one connection for identity
7: disconnecting websocket 5 (never registered) changes nothing, and the
double disconnect of websocket 1 equals the single disconnect. -/
theorem disconnect_idempotent_witness :
    ((ConnectionManager.mk 30 60 3 [(7, [(1, 0)])] [(1, 7)]).disconnect 1).disconnect 1
      = (ConnectionManager.mk 30 60 3 [(7, [(1, 0)])] [(1, 7)]).disconnect 1 ∧
    (ConnectionManager.mk 30 60 3 [(7, [(1, 0)])] [(1, 7)]).disconnect 5
      = ConnectionManager.mk 30 60 3 [(7, [(1, 0)])] [(1, 7)] :=
  ⟨(disconnect_idempotent (ConnectionManager.mk 30 60 3 [(7, [(1, 0)])] [(1, 7)]) 1).1,
   (disconnect_idempotent (ConnectionManager.mk 30 60 3 [(7, [(1, 0)])] [(1, 7)]) 5).2
      (by decide)⟩

/-! ## `app/services/chat_service.py` -/

/-- The fixed `system_prompt` of `ChatService._build_prompt` (lines 253-264). -/
def systemPrompt : String :=
  "B·∫°n l√† PharmaAI, m·ªôt tr·ª£ l√Ω AI chuy√™n nghi·ªáp v√† t·∫≠n t√¢m v·ªÅ lƒ©nh v·ª±c y t·∫ø, d∆∞·ª£c ph·∫©m v√† chƒÉm s√≥c s·ª©c kh·ªèe da li·ªÖu c·ªßa ·ª©ng d·ª•ng PharmaAI.\n\nNhi·ªám v·ª• c·ªßa b·∫°n:\n- Gi·∫£i ƒë√°p c√°c th·∫Øc m·∫Øc v·ªÅ s·ª©c kh·ªèe, thu·ªëc, b·ªánh l√Ω v√† c√°c v·∫•n ƒë·ªÅ v·ªÅ da li·ªÖu cho ng∆∞·ªùi d√πng m·ªôt c√°ch ch√≠nh x√°c, d·ªÖ hi·ªÉu v√† d·ª±a tr√™n b·∫±ng ch·ª©ng khoa h·ªçc.\n- Khi c√≥ th√¥ng tin t·ª´ c∆° s·ªü d·ªØ li·ªáu, h√£y s·ª≠ d·ª•ng n√≥ ƒë·ªÉ ƒë∆∞a ra c√¢u tr·∫£ l·ªùi ch√≠nh x√°c v√† ƒë·ªÅ c·∫≠p ƒë·∫øn t√™n thu·ªëc, th∆∞∆°ng hi·ªáu, gi√° c·∫£.\n- Khi KH√îNG c√≥ th√¥ng tin c·ª• th·ªÉ t·ª´ c∆° s·ªü d·ªØ li·ªáu (v√≠ d·ª•: c√¢u ch√†o h·ªèi, c√¢u h·ªèi chung), h√£y tr·∫£ l·ªùi m·ªôt c√°ch t·ª± nhi√™n v√† th√¢n thi·ªán.\n- Tr·∫£ l·ªùi b·∫±ng ti·∫øng Vi·ªát, ng·∫Øn g·ªçn, d·ªÖ hi·ªÉu v√† th√¢n thi·ªán.\n\nL∆∞u √Ω quan tr·ªçng:\n- KH√îNG t·ª± b·ªãa ƒë·∫∑t th√¥ng tin v·ªÅ thu·ªëc ho·∫∑c s·∫£n ph·∫©m c·ª• th·ªÉ.\n- Lu√¥n khuy√™n ng∆∞·ªùi d√πng ƒëi kh√°m b√°c sƒ© ho·∫∑c d∆∞·ª£c sƒ© n·∫øu tri·ªáu ch·ª©ng nghi√™m tr·ªçng ho·∫∑c k√©o d√†i.\n- V·ªõi c√¢u h·ªèi chung v·ªÅ ƒë·ªãnh nghƒ©a b·ªánh l√Ω, b·∫°n c√≥ th·ªÉ gi·∫£i th√≠ch d·ª±a tr√™n ki·∫øn th·ª©c y h·ªçc ph·ªï th√¥ng."

/-- Pieces of the grounded `current_prompt` f-string (lines 278-283):
`groundedPre ++ context ++ groundedMid ++ user_message ++ groundedPost`. -/
def groundedPre : String := "Ng·ªØ c·∫£nh t·ª´ c∆° s·ªü d·ªØ li·ªáu:\n"

def groundedMid : String := "\n\nC√¢u h·ªèi c·ªßa ng∆∞·ªùi d√πng: "

def groundedPost : String := "\n\nH√£y tr·∫£ l·ªùi d·ª±a tr√™n ng·ªØ c·∫£nh tr√™n."

/-- Pieces of the no-context `current_prompt` f-string (lines 286-288):
`ungroundedPre ++ user_message ++ ungroundedPost`. -/
def ungroundedPre : String := "C√¢u h·ªèi c·ªßa ng∆∞·ªùi d√πng: "

def ungroundedPost : String := "\n\nL∆∞u √Ω: Kh√¥ng c√≥ s·∫£n ph·∫©m c·ª• th·ªÉ n√†o t·ª´ c∆° s·ªü d·ªØ li·ªáu ph√π h·ª£p v·ªõi c√¢u h·ªèi n√†y. H√£y tr·∫£ l·ªùi m·ªôt c√°ch t·ª± nhi√™n v√† h·ªØu √≠ch."

/-- Pieces of the per-candidate context label f-string (line 230):
`labelPre ++ toString i ++ labelPost ++ doc.page_content`. -/
def labelPre : String := "[Ngu·ªìn "

def labelPost : String := "] "

/-- The four progress-status strings yielded by `process_chat_streaming`
(lines 370, 375, 380, 386). -/
def statusInitSession : String := "ƒêang kh·ªüi t·∫°o phi√™n chat..."

def statusLoadHistory : String := "ƒêang t·∫£i l·ªãch s·ª≠ h·ªôi tho·∫°i..."

def statusSearch : String := "ƒêang t√¨m ki·∫øm th√¥ng tin li√™n quan..."

def statusGenerate : String := "ƒêang t·∫°o c√¢u tr·∫£ l·ªùi..."

/-- Python `str.isspace` characters relevant here (the six ASCII whitespace
characters recognised by `str.strip()` / `str.split()`). -/
def pyIsSpace (c : Char) : Bool :=
  c = ' ' || c = '\t' || c = '\n' || c = '\r' || c = Char.ofNat 11 || c = Char.ofNat 12

/-- Python `message.strip()`: drop leading and trailing whitespace. -/
def pyStrip (l : List Char) : List Char :=
  ((l.dropWhile pyIsSpace).reverse.dropWhile pyIsSpace).reverse

/-- Worker for `str.split()` with the accumulator holding the current word
reversed. -/
def splitWsAux : List Char → List Char → List (List Char)
  | [], acc => if acc = [] then [] else [acc.reverse]
  | c :: t, acc =>
      if pyIsSpace c then
        if acc = [] then splitWsAux t [] else acc.reverse :: splitWsAux t []
      else splitWsAux t (c :: acc)

/-- Python `title.split()`: split on runs of whitespace, discarding empties. -/
def splitWs (l : List Char) : List (List Char) := splitWsAux l []

/-- Python `' '.join(words)`. -/
def joinWords : List (List Char) → List Char
  | [] => []
  | [w] => w
  | w :: ws => w ++ ' ' :: joinWords ws

/-- Python `s.rsplit(' ', 1)[0]`: everything before the last space, or the
whole string when it contains no space. -/
def rsplitHead (l : List Char) : List Char :=
  match l.reverse.dropWhile (fun c => c ≠ ' ') with
  | [] => l
  | _ :: rest => rest.reverse

/-- `ChatService._generate_session_title` (lines 124-145): strip, collapse
whitespace runs via `' '.join(message.split())`, truncate via
`title[:max_length].rsplit(' ', 1)[0] + '...'` when longer than `max_length`,
and fall back to the sentinel when the result is empty. -/
def generateSessionTitle (message : String) (maxLength : ℕ) : String :=
  let title := joinWords (splitWs (pyStrip message.data))
  let title :=
    if maxLength < title.length then
      rsplitHead (title.take maxLength) ++ ['.', '.', '.']
    else title
  if title = [] then "New Chat" else String.mk title

/-- Row of the `ChatSessions` table as used by the chat service. -/
structure ChatSessionRow where
  id : String
  userId : Nat
  title : String
  createdAt : ℚ
  updatedAt : Option ℚ
  deletedAt : Option ℚ
deriving Repr, DecidableEq

/-- Row of the `ChatMessages` table as used by the chat service. -/
structure ChatMessageRow where
  id : String
  sessionId : String
  role : String
  content : String
  sources : Option String
  createdAt : ℚ
  deletedAt : Option ℚ
deriving Repr, DecidableEq

/-- The relational store visible to the chat service.  Every helper commits
its own writes before returning, so the store is modelled directly by its
committed contents. -/
structure ChatDB where
  sessions : List ChatSessionRow
  messages : List ChatMessageRow
deriving Repr, DecidableEq

/-- Update the first row matching `p` (the row an ORM query fetched). -/
def updateFirstSession (p : ChatSessionRow → Bool) (f : ChatSessionRow → ChatSessionRow) :
    List ChatSessionRow → List ChatSessionRow
  | [] => []
  | s :: t => if p s then f s :: t else s :: updateFirstSession p f t

/-- `ChatService._update_session_title` (lines 147-165): fetch the session by
id and overwrite its title (and `updated_at`) only while it still equals the
sentinel "New Chat". -/
def updateSessionTitle (db : ChatDB) (sessionId : String) (message : String)
    (now : ℚ) : ChatDB :=
  match db.sessions.find? (fun s => s.id == sessionId) with
  | none => db
  | some s =>
      if s.title == "New Chat" then
        { db with
          sessions := updateFirstSession (fun t => t.id == sessionId)
            (fun t => { t with title := generateSessionTitle message 50,
                               updatedAt := some now }) db.sessions }
      else db

/-- `ChatService._get_or_create_session` (lines 79-122): fetch and
ownership-check an existing non-deleted session, or create (and commit) a
fresh one titled "New Chat". -/
def getOrCreateSession (db : ChatDB) (sessionId : Option String) (userId : Nat)
    (newId : String) (now : ℚ) : Except String (ChatSessionRow × ChatDB) :=
  match sessionId with
  | some sid =>
      match db.sessions.find? (fun s => s.id == sid && s.deletedAt.isNone) with
      | none =>
          Except.error ("Chat session with ID " ++ sid ++ " not found or has been deleted.")
      | some s =>
          if s.userId ≠ userId then
            Except.error ("Chat session " ++ sid ++ " does not belong to the current user.")
          else Except.ok (s, db)
  | none =>
      let s : ChatSessionRow :=
        { id := newId, userId := userId, title := "New Chat", createdAt := now,
          updatedAt := none, deletedAt := none }
      Except.ok (s, { db with sessions := db.sessions ++ [s] })

/-- The non-deleted messages of a session (the filter of
`_get_chat_history`, lines 179-182). -/
def validMessages (db : ChatDB) (sessionId : String) : List ChatMessageRow :=
  db.messages.filter (fun m => m.sessionId == sessionId && m.deletedAt.isNone)

/-- The `ORDER BY created_at DESC` relation. -/
def createdDesc (a b : ChatMessageRow) : Prop := b.createdAt ≤ a.createdAt

instance : DecidableRel createdDesc :=
  fun a b => inferInstanceAs (Decidable (b.createdAt ≤ a.createdAt))

instance : IsTotal ChatMessageRow createdDesc :=
  ⟨fun a b => le_total b.createdAt a.createdAt⟩

instance : IsTrans ChatMessageRow createdDesc :=
  ⟨fun _ _ _ hab hbc => le_trans hbc hab⟩

/-- The message rows selected by `_get_chat_history` (lines 179-185): newest
`limit` rows, then reversed into chronological order. -/
def selectedMessages (db : ChatDB) (sessionId : String) (limit : ℕ) :
    List ChatMessageRow :=
  ((List.insertionSort createdDesc (validMessages db sessionId)).take limit).reverse

/-- One history entry, `{"role": ..., "content": ...}`. -/
structure HistoryEntry where
  role : String
  content : String
deriving Repr, DecidableEq

/-- `ChatService._get_chat_history` (lines 167-194). -/
def getChatHistory (db : ChatDB) (sessionId : String) (limit : ℕ) : List HistoryEntry :=
  (selectedMessages db sessionId limit).map (fun m => { role := m.role, content := m.content })

/-- A retrieved document: page content plus its metadata (kept opaque). -/
structure RagDoc where
  pageContent : String
  metadata : String
deriving Repr, DecidableEq

/-- `ChatService.SIMILARITY_THRESHOLD` (line 26). -/
def SIMILARITY_THRESHOLD : ℚ := 14

/-- The filtering loop of `_perform_rag_retrieval` (lines 216-222): keep
candidates with `score < SIMILARITY_THRESHOLD`, in the order the index
returned them. -/
def filteredDocs (docsWithScores : List (RagDoc × ℚ)) : List (RagDoc × ℚ) :=
  docsWithScores.filter (fun p => p.2 < SIMILARITY_THRESHOLD)

/-- The `[Ngu·ªìn i] page_content` labels, numbered from 1 (lines 229-230). -/
def contextParts : ℕ → List (RagDoc × ℚ) → List String
  | _, [] => []
  | i, (d, _) :: t => (labelPre ++ toString i ++ labelPost ++ d.pageContent) :: contextParts (i + 1) t

/-- `ChatService._perform_rag_retrieval` (lines 196-239), as a function of the
candidate list the vector index returned: filter by the threshold, then
either `("", [])` when nothing survives or the joined context text plus the
surviving metadata. -/
def performRagRetrieval (docsWithScores : List (RagDoc × ℚ)) : String × List String :=
  let fd := filteredDocs docsWithScores
  if fd = [] then ("", [])
  else (String.intercalate "\n\n" (contextParts 1 fd), fd.map (fun p => p.1.metadata))

/-- A LangChain prompt entry: `SystemMessage`, `HumanMessage` or `AIMessage`. -/
inductive PromptMessage where
  | system (content : String)
  | human (content : String)
  | ai (content : String)
deriving Repr, DecidableEq

/-- `ChatService._build_prompt` (lines 241-292): the fixed system entry, the
history entries tagged by role (the loop maps only `user` and `assistant`
roles), and one final human entry whose text embeds the context block when
`context` is non-empty and the explicit no-context note otherwise. -/
def buildPrompt (userMessage context : String) (chatHistory : List HistoryEntry) :
    List PromptMessage :=
  let histMsgs := chatHistory.filterMap (fun m =>
    if m.role = "user" then some (PromptMessage.human m.content)
    else if m.role = "assistant" then some (PromptMessage.ai m.content)
    else none)
  let current :=
    if context ≠ "" then groundedPre ++ context ++ groundedMid ++ userMessage ++ groundedPost
    else ungroundedPre ++ userMessage ++ ungroundedPost
  PromptMessage.system systemPrompt :: (histMsgs ++ [PromptMessage.human current])

/-- Abstraction of `json.dumps(sources, ensure_ascii=False)` on the metadata
list. -/
def jsonDumpSources (sources : List String) : String :=
  "[" ++ String.intercalate ", " sources ++ "]"

/-- `ChatService._save_messages` (lines 294-336): append the user row stamped
`now` and the assistant row stamped `now + 1` second (source:
`datetime.now() + timedelta(seconds=1)`), committed as one write. -/
def saveMessages (db : ChatDB) (sessionId userMessage aiResponse : String)
    (sources : List String) (userMsgId aiMsgId : String) (now : ℚ) : ChatDB :=
  let userMsg : ChatMessageRow :=
    { id := userMsgId, sessionId := sessionId, role := "user", content := userMessage,
      sources := none, createdAt := now, deletedAt := none }
  let sourcesJson : Option String :=
    if sources = [] then none else some (jsonDumpSources sources)
  let aiMsg : ChatMessageRow :=
    { id := aiMsgId, sessionId := sessionId, role := "assistant", content := aiResponse,
      sources := sourcesJson, createdAt := now + 1, deletedAt := none }
  { db with messages := db.messages ++ [userMsg, aiMsg] }

/-- One server-to-client streaming event (`finish` models the `end` event). -/
inductive StreamEvent where
  | status (s : String)
  | start (sessionId : String)
  | chunk (content : String)
  | finish (sources : List String) (createdAt : ℚ)
deriving Repr, DecidableEq

/-- Result of consuming the `process_chat_streaming` generator to completion:
the events yielded, the final store contents, and the error carried by the
raised exception, if any. -/
structure StreamOutcome where
  events : List StreamEvent
  db : ChatDB
  error : Option String
deriving Repr, DecidableEq

/-- `ChatService.process_chat_streaming` (lines 338-426).  The vector index
reply is `docsWithScores`; the model stream yields `llmChunks` and then either
completes (`llmOk = true`) or raises.  On a model failure the events already
yielded stand, the rollback leaves only what previous steps committed (the
session row), and `_save_messages` is never reached; on success the title is
derived only for a freshly created session and the exchange is persisted. -/
def processChatStreaming (db : ChatDB) (message : String) (sessionId : Option String)
    (userId : Nat) (docsWithScores : List (RagDoc × ℚ)) (llmChunks : List String)
    (llmOk : Bool) (newSessionId userMsgId aiMsgId : String) (now : ℚ) : StreamOutcome :=
  let ev0 := [StreamEvent.status statusInitSession]
  match getOrCreateSession db sessionId userId newSessionId now with
  | Except.error e => { events := ev0, db := db, error := some e }
  | Except.ok (sess, db1) =>
      let hist := getChatHistory db1 sess.id 5
      let rag := performRagRetrieval docsWithScores
      let ev1 := ev0 ++ [StreamEvent.status statusLoadHistory, StreamEvent.status statusSearch,
        StreamEvent.status statusGenerate, StreamEvent.start sess.id]
      let _prompt := buildPrompt message rag.1 hist
      let emitted := llmChunks.filter (fun c => c ≠ "")
      let fullResponse := String.join emitted
      let ev2 := ev1 ++ emitted.map StreamEvent.chunk
      if llmOk then
        let db2 := if sessionId = none then updateSessionTitle db1 sess.id message now else db1
        let db3 := saveMessages db2 sess.id message fullResponse rag.2 userMsgId aiMsgId now
        { events := ev2 ++ [StreamEvent.finish rag.2 now], db := db3, error := none }
      else
        { events := ev2, db := db1, error := some "Failed to process chat" }

/-- Claim C3: every source returned by `_perform_rag_retrieval` stems from a
candidate whose score is strictly below `SIMILARITY_THRESHOLD` (so no
returned source has score ≥ threshold), and when every candidate scores at or
above the threshold the result is exactly `("", [])` rather than an error. -/
theorem ragRetrieval_threshold_filter (docsWithScores : List (RagDoc × ℚ)) :
    (∀ m ∈ (performRagRetrieval docsWithScores).2,
      ∃ d sc, (d, sc) ∈ docsWithScores ∧ sc < SIMILARITY_THRESHOLD ∧ m = d.metadata) ∧
    ((∀ p ∈ docsWithScores, SIMILARITY_THRESHOLD ≤ p.2) →
      performRagRetrieval docsWithScores = ("", [])) := by
  constructor
  · intro m hm
    by_cases hfd : filteredDocs docsWithScores = []
    · simp [performRagRetrieval, hfd] at hm
    · simp only [performRagRetrieval, hfd, if_neg, ite_false] at hm
      obtain ⟨⟨d, sc⟩, hp, rfl⟩ := List.mem_map.mp hm
      have hp' := List.mem_filter.mp hp
      refine ⟨d, sc, hp'.1, ?_, rfl⟩
      simpa using hp'.2
  · intro hall
    have hfd : filteredDocs docsWithScores = [] := by
      simp only [filteredDocs, List.filter_eq_nil_iff]
      intro p hp
      simpa using not_lt.mpr (hall p hp)
    simp [performRagRetrieval, hfd]

/-- Witness for C3: a single candidate scoring 20 ≥ 14 is discarded and the
retrieval degrades to empty context and empty sources. -/
theorem ragRetrieval_threshold_filter_witness :
    performRagRetrieval [(⟨"doc", "meta"⟩, 20)] = ("", []) :=
  (ragRetrieval_threshold_filter [(⟨"doc", "meta"⟩, 20)]).2 (by decide)

/-- Counterexample to claim C7: the code never sorts.  With the index
returning candidate `A` (score 5) before `B` (score 1) — both surviving the
threshold — the sources come back as `["mA", "mB"]`, i.e. in index order,
although most-similar-first ordering (ascending score, 1 < 5) would require
`"mB"` first. -/
theorem ragRetrieval_order_counterexample :
    (performRagRetrieval [(⟨"A", "mA"⟩, 5), (⟨"B", "mB"⟩, 1)]).2 = ["mA", "mB"] ∧
    (1 : ℚ) < 5 := by
  constructor
  · decide
  · norm_num

/-- Claim C7 (amended): `_perform_rag_retrieval` preserves the order in which
the underlying vector index returned the candidates — the survivors are a
sublist of the input and the sources are their metadata in that same order —
so the output is most-similar-first exactly when the index already returned
candidates sorted by ascending score (which FAISS does), not regardless of
the index order. -/
theorem ragRetrieval_order_amended (docsWithScores : List (RagDoc × ℚ)) :
    List.Sublist (filteredDocs docsWithScores) docsWithScores ∧
    (performRagRetrieval docsWithScores).2
      = (filteredDocs docsWithScores).map (fun p => p.1.metadata) ∧
    (List.Pairwise (fun p q : RagDoc × ℚ => p.2 ≤ q.2) docsWithScores →
      List.Pairwise (fun p q : RagDoc × ℚ => p.2 ≤ q.2) (filteredDocs docsWithScores)) := by
  refine ⟨List.filter_sublist _, ?_, ?_⟩
  · by_cases hfd : filteredDocs docsWithScores = []
    · simp [performRagRetrieval, hfd]
    · simp [performRagRetrieval, hfd]
  · intro hp
    exact List.Pairwise.sublist (List.filter_sublist _) hp

/-- Witness for C7 (amended) on a concrete ascending-score candidate list. -/
theorem ragRetrieval_order_amended_witness :
    List.Sublist (filteredDocs [(⟨"B", "mB"⟩, 1), (⟨"A", "mA"⟩, 5)])
      [(⟨"B", "mB"⟩, 1), (⟨"A", "mA"⟩, 5)] ∧
    (performRagRetrieval [(⟨"B", "mB"⟩, 1), (⟨"A", "mA"⟩, 5)]).2
      = (filteredDocs [(⟨"B", "mB"⟩, 1), (⟨"A", "mA"⟩, 5)]).map (fun p => p.1.metadata) ∧
    List.Pairwise (fun p q : RagDoc × ℚ => p.2 ≤ q.2)
      (filteredDocs [(⟨"B", "mB"⟩, 1), (⟨"A", "mA"⟩, 5)]) :=
  ⟨(ragRetrieval_order_amended [(⟨"B", "mB"⟩, 1), (⟨"A", "mA"⟩, 5)]).1,
   (ragRetrieval_order_amended [(⟨"B", "mB"⟩, 1), (⟨"A", "mA"⟩, 5)]).2.1,
   (ragRetrieval_order_amended [(⟨"B", "mB"⟩, 1), (⟨"A", "mA"⟩, 5)]).2.2 (by decide)⟩

theorem histMsgs_eq_map (hist : List HistoryEntry)
    (hroles : ∀ e ∈ hist, e.role = "user" ∨ e.role = "assistant") :
    hist.filterMap (fun m =>
      if m.role = "user" then some (PromptMessage.human m.content)
      else if m.role = "assistant" then some (PromptMessage.ai m.content)
      else none)
    = hist.map (fun e =>
        if e.role = "user" then PromptMessage.human e.content
        else PromptMessage.ai e.content) := by
  induction hist with
  | nil => rfl
  | cons e t ih =>
      have ht : ∀ x ∈ t, x.role = "user" ∨ x.role = "assistant" :=
        fun x hx => hroles x (List.mem_cons_of_mem _ hx)
      rcases hroles e (List.mem_cons_self e t) with h | h
      · simp [List.filterMap_cons, h, ih ht]
      · simp [List.filterMap_cons, h, ih ht]

/-- Claim C9: `_build_prompt` produces exactly one fixed system entry first,
then the history entries (at most the last 5, in chronological order) each
tagged by its original role, then exactly one final human entry holding the
current user message — with the context block and grounding instruction when
`context` is non-empty and the explicit no-context note when it is empty.
The role hypothesis holds for every history the service itself builds, since
`_save_messages` only writes `user` and `assistant` rows. -/
theorem buildPrompt_structure (userMessage context : String) (hist : List HistoryEntry)
    (hroles : ∀ e ∈ hist, e.role = "user" ∨ e.role = "assistant")
    (db : ChatDB) (sid : String) :
    buildPrompt userMessage context hist
      = PromptMessage.system systemPrompt
          :: (hist.map (fun e =>
                if e.role = "user" then PromptMessage.human e.content
                else PromptMessage.ai e.content)
              ++ [PromptMessage.human
                    (if context ≠ "" then
                      groundedPre ++ context ++ groundedMid ++ userMessage ++ groundedPost
                    else ungroundedPre ++ userMessage ++ ungroundedPost)]) ∧
    (getChatHistory db sid 5).length ≤ 5 ∧
    List.Pairwise (fun a b : ChatMessageRow => a.createdAt ≤ b.createdAt)
      (selectedMessages db sid 5) := by
  refine ⟨?_, ?_, ?_⟩
  · simp only [buildPrompt, histMsgs_eq_map hist hroles]
  · have h1 : (selectedMessages db sid 5).length ≤ 5 := by
      simp only [selectedMessages, List.length_reverse]
      exact (List.length_take_le _ _)
    simpa [getChatHistory] using h1
  · have hsorted : List.Pairwise createdDesc
        (List.insertionSort createdDesc (validMessages db sid)) :=
      List.sorted_insertionSort createdDesc (validMessages db sid)
    have htake : List.Pairwise createdDesc
        ((List.insertionSort createdDesc (validMessages db sid)).take 5) :=
      List.Pairwise.sublist (List.take_sublist _ _) hsorted
    have hrev := (List.pairwise_reverse).mpr htake
    simpa [selectedMessages, createdDesc] using hrev

/-- Witness for C9 at a concrete two-entry history, empty context and a small
store. -/
theorem buildPrompt_structure_witness :
    buildPrompt "hello" "" [⟨"user", "hi"⟩, ⟨"assistant", "yo"⟩]
      = PromptMessage.system systemPrompt
          :: ([⟨"user", "hi"⟩, ⟨"assistant", "yo"⟩].map (fun e : HistoryEntry =>
                if e.role = "user" then PromptMessage.human e.content
                else PromptMessage.ai e.content)
              ++ [PromptMessage.human
                    (if "" ≠ "" then
                      groundedPre ++ "" ++ groundedMid ++ "hello" ++ groundedPost
                    else ungroundedPre ++ "hello" ++ ungroundedPost)]) ∧
    (getChatHistory ⟨[], []⟩ "s" 5).length ≤ 5 ∧
    List.Pairwise (fun a b : ChatMessageRow => a.createdAt ≤ b.createdAt)
      (selectedMessages ⟨[], []⟩ "s" 5) :=
  buildPrompt_structure "hello" "" [⟨"user", "hi"⟩, ⟨"assistant", "yo"⟩]
    (by decide) ⟨[], []⟩ "s"

/-- Counterexample to claim C6: `_save_messages` stamps the assistant row one
second after the user row, so two exchanges saved half a second apart
interleave — the first exchange's assistant row (created_at 1) is later than
the second exchange's user row (created_at 1/2), refuting the claimed strict
ordering between successive exchanges (and at a gap of exactly one second the
timestamps tie, so the order by creation time is not even total). -/
theorem saveMessages_order_counterexample :
    ((saveMessages (saveMessages ⟨[], []⟩ "s" "q1" "a1" [] "m1" "m2" 0)
        "s" "q2" "a2" [] "m3" "m4" (1/2)).messages.map (fun m => m.createdAt))
      = [0, 1, 1/2, 3/2] ∧ (1/2 : ℚ) < 1 := by
  constructor
  · norm_num [saveMessages]
  · norm_num

theorem saveMessages_messages (db : ChatDB) (sid q a : String) (srcs : List String)
    (i1 i2 : String) (t : ℚ) :
    (saveMessages db sid q a srcs i1 i2 t).messages
      = db.messages
          ++ [{ id := i1, sessionId := sid, role := "user", content := q,
                sources := none, createdAt := t, deletedAt := none },
              { id := i2, sessionId := sid, role := "assistant", content := a,
                sources := if srcs = [] then none else some (jsonDumpSources srcs),
                createdAt := t + 1, deletedAt := none }] := rfl

/-- Claim C6 (amended): each successful exchange appends exactly two rows in
one write — the user row stamped with the save time, the assistant row
stamped one second later — so the user row always precedes the assistant row
within an exchange; across two successive exchanges every row of the earlier
one precedes every row of the later one only when the later save happens more
than one second after the earlier save (closer saves can interleave or tie,
as the counterexample shows). -/
theorem saveMessages_pair_order_amended (db : ChatDB) (sid q1 a1 q2 a2 : String)
    (s1 s2 : List String) (i1 i2 i3 i4 : String) (t1 t2 : ℚ) :
    (saveMessages db sid q1 a1 s1 i1 i2 t1).messages.map
        (fun m => (m.role, m.content, m.createdAt))
      = db.messages.map (fun m => (m.role, m.content, m.createdAt))
          ++ [("user", q1, t1), ("assistant", a1, t1 + 1)] ∧
    ((saveMessages (saveMessages db sid q1 a1 s1 i1 i2 t1) sid q2 a2 s2 i3 i4 t2).messages.map
        (fun m => m.createdAt))
      = db.messages.map (fun m => m.createdAt) ++ [t1, t1 + 1, t2, t2 + 1] ∧
    (t1 + 1 < t2 →
      List.Pairwise (fun a b : ℚ => a < b) [t1, t1 + 1, t2, t2 + 1]) := by
  refine ⟨?_, ?_, ?_⟩
  · simp [saveMessages]
  · simp [saveMessages]
  · intro h
    refine List.Pairwise.cons (fun b hb => ?_)
      (List.Pairwise.cons (fun b hb => ?_)
        (List.Pairwise.cons (fun b hb => ?_)
          (List.Pairwise.cons (fun b hb => ?_) List.Pairwise.nil)))
    all_goals fin_cases hb <;> linarith

/-- Witness for C6 (amended) with saves at times 0 and 3 (more than one
second apart): the four creation times are strictly increasing. -/
theorem saveMessages_pair_order_amended_witness :
    (saveMessages ⟨[], []⟩ "s" "q1" "a1" [] "m1" "m2" 0).messages.map
        (fun m => (m.role, m.content, m.createdAt))
      = (⟨[], []⟩ : ChatDB).messages.map (fun m => (m.role, m.content, m.createdAt))
          ++ [("user", "q1", 0), ("assistant", "a1", 0 + 1)] ∧
    ((saveMessages (saveMessages ⟨[], []⟩ "s" "q1" "a1" [] "m1" "m2" 0)
        "s" "q2" "a2" [] "m3" "m4" 3).messages.map (fun m => m.createdAt))
      = (⟨[], []⟩ : ChatDB).messages.map (fun m => m.createdAt)
          ++ [0, 0 + 1, 3, 3 + 1] ∧
    List.Pairwise (fun a b : ℚ => a < b) [0, 0 + 1, 3, 3 + 1] :=
  ⟨(saveMessages_pair_order_amended ⟨[], []⟩ "s" "q1" "a1" "q2" "a2" [] [] "m1" "m2" "m3" "m4" 0 3).1,
   (saveMessages_pair_order_amended ⟨[], []⟩ "s" "q1" "a1" "q2" "a2" [] [] "m1" "m2" "m3" "m4" 0 3).2.1,
   (saveMessages_pair_order_amended ⟨[], []⟩ "s" "q1" "a1" "q2" "a2" [] [] "m1" "m2" "m3" "m4" 0 3).2.2
     (by norm_num)⟩

theorem getOrCreateSession_messages (db : ChatDB) (sessionId : Option String)
    (userId : Nat) (newId : String) (now : ℚ) (sess : ChatSessionRow) (db1 : ChatDB)
    (h : getOrCreateSession db sessionId userId newId now = Except.ok (sess, db1)) :
    db1.messages = db.messages := by
  cases sessionId with
  | none =>
      simp only [getOrCreateSession, Except.ok.injEq, Prod.mk.injEq] at h
      obtain ⟨-, h2⟩ := h
      rw [← h2]
  | some sid =>
      simp only [getOrCreateSession] at h
      split at h
      · simp at h
      · split at h
        · simp at h
        · simp only [Except.ok.injEq, Prod.mk.injEq] at h
          obtain ⟨-, h2⟩ := h
          rw [← h2]

theorem updateSessionTitle_messages (db : ChatDB) (sid msg : String) (now : ℚ) :
    (updateSessionTitle db sid msg now).messages = db.messages := by
  unfold updateSessionTitle
  cases hf : db.sessions.find? (fun s => s.id == sid) with
  | none => rfl
  | some s =>
      by_cases ht : (s.title == "New Chat") = true
      · simp [ht]
      · simp [ht]

/-- Claim C4: when the model stream raises after yielding its fragments, the
already-yielded chunk events stand (they are never retracted), an error is
reported, and no message row is persisted — the `_save_messages` write
happens only on the path where streaming completed in full, where it appends
exactly the user/assistant pair. -/
theorem processChatStreaming_failure_no_persist
    (db : ChatDB) (msg : String) (sid : Option String) (uid : Nat)
    (cands : List (RagDoc × ℚ)) (cks : List String) (ok : Bool)
    (nsid i1 i2 : String) (t : ℚ) (sess : ChatSessionRow) (db1 : ChatDB)
    (hres : getOrCreateSession db sid uid nsid t = Except.ok (sess, db1)) :
    (ok = false →
      (processChatStreaming db msg sid uid cands cks ok nsid i1 i2 t).error.isSome = true ∧
      (processChatStreaming db msg sid uid cands cks ok nsid i1 i2 t).db.messages
        = db.messages ∧
      (∀ c ∈ cks, c ≠ "" →
        StreamEvent.chunk c
          ∈ (processChatStreaming db msg sid uid cands cks ok nsid i1 i2 t).events)) ∧
    (ok = true →
      (processChatStreaming db msg sid uid cands cks ok nsid i1 i2 t).error = none ∧
      (processChatStreaming db msg sid uid cands cks ok nsid i1 i2 t).db.messages.map
          (fun m => (m.role, m.content, m.createdAt))
        = db.messages.map (fun m => (m.role, m.content, m.createdAt))
            ++ [("user", msg, t),
                ("assistant", String.join (cks.filter (fun c => c ≠ "")), t + 1)]) := by
  have hmsg1 : db1.messages = db.messages :=
    getOrCreateSession_messages db sid uid nsid t sess db1 hres
  constructor
  · intro hok
    subst hok
    simp only [processChatStreaming, hres]
    refine ⟨rfl, hmsg1, ?_⟩
    intro c hc hne
    simp only [Bool.false_eq_true, if_false]
    apply List.mem_append_right
    exact List.mem_map_of_mem _ (List.mem_filter.mpr ⟨hc, by simpa using hne⟩)
  · intro hok
    subst hok
    simp only [processChatStreaming, hres]
    constructor
    · rfl
    · have hdb2 : (if sid = none then updateSessionTitle db1 sess.id msg t else db1).messages
          = db.messages := by
        by_cases hs : sid = none
        · simp [hs, updateSessionTitle_messages, hmsg1]
        · simp [hs, hmsg1]
      simp only [if_true]
      rw [saveMessages_messages, List.map_append, hdb2]
      rfl

/-- Witness for C4: a fresh session, two fragments, and a stream that raises
after yielding them — events keep both chunks, an error is reported, and no
message row exists afterwards. -/
theorem processChatStreaming_failure_no_persist_witness :
    ((false : Bool) = false →
      (processChatStreaming ⟨[], []⟩ "hi" none 7 [] ["a", "b"] false "ns" "u1" "a1" 0).error.isSome
          = true ∧
      (processChatStreaming ⟨[], []⟩ "hi" none 7 [] ["a", "b"] false "ns" "u1" "a1" 0).db.messages
        = (⟨[], []⟩ : ChatDB).messages ∧
      (∀ c ∈ ["a", "b"], c ≠ "" →
        StreamEvent.chunk c
          ∈ (processChatStreaming ⟨[], []⟩ "hi" none 7 [] ["a", "b"] false "ns" "u1" "a1" 0).events)) ∧
    ((false : Bool) = true →
      (processChatStreaming ⟨[], []⟩ "hi" none 7 [] ["a", "b"] false "ns" "u1" "a1" 0).error = none ∧
      (processChatStreaming ⟨[], []⟩ "hi" none 7 [] ["a", "b"] false "ns" "u1" "a1" 0).db.messages.map
          (fun m => (m.role, m.content, m.createdAt))
        = (⟨[], []⟩ : ChatDB).messages.map (fun m => (m.role, m.content, m.createdAt))
            ++ [("user", "hi", 0),
                ("assistant", String.join (["a", "b"].filter (fun c => c ≠ "")), 0 + 1)]) :=
  processChatStreaming_failure_no_persist ⟨[], []⟩ "hi" none 7 [] ["a", "b"] false
    "ns" "u1" "a1" 0 ⟨"ns", 7, "New Chat", 0, none, none⟩
    ⟨[⟨"ns", 7, "New Chat", 0, none, none⟩], []⟩ rfl

/-- Two adjacent whitespace characters somewhere in the list. -/
def hasDoubleSpace : List Char → Bool
  | [] => false
  | [_] => false
  | a :: b :: t => (pyIsSpace a && pyIsSpace b) || hasDoubleSpace (b :: t)

theorem hds_left_of_append {l t : List Char}
    (h : hasDoubleSpace (l ++ t) = false) : hasDoubleSpace l = false := by
  induction l with
  | nil => rfl
  | cons a l' ih =>
      cases l' with
      | nil => rfl
      | cons b l'' =>
          simp only [List.cons_append, hasDoubleSpace, Bool.or_eq_false_iff] at h ⊢
          refine ⟨h.1, ?_⟩
          exact ih (by simpa [List.cons_append] using h.2)

theorem hds_take {l : List Char} (n : ℕ) (h : hasDoubleSpace l = false) :
    hasDoubleSpace (l.take n) = false :=
  hds_left_of_append (t := l.drop n) (by rwa [List.take_append_drop])

theorem rsplitHead_append_eq (l : List Char) : ∃ t, l = rsplitHead l ++ t := by
  unfold rsplitHead
  cases hd : l.reverse.dropWhile (fun c => c ≠ ' ') with
  | nil => exact ⟨[], by simp⟩
  | cons c rest =>
      refine ⟨c :: (l.reverse.takeWhile (fun c => c ≠ ' ')).reverse, ?_⟩
      have h1 : l.reverse = l.reverse.takeWhile (fun c => c ≠ ' ') ++ (c :: rest) := by
        rw [← hd, List.takeWhile_append_dropWhile]
      have h2 : l = (c :: rest).reverse ++ (l.reverse.takeWhile (fun c => c ≠ ' ')).reverse := by
        rw [← List.reverse_append, ← h1, List.reverse_reverse]
      simpa [List.append_assoc] using h2

theorem rsplitHead_length_le (l : List Char) : (rsplitHead l).length ≤ l.length := by
  obtain ⟨t, ht⟩ := rsplitHead_append_eq l
  calc (rsplitHead l).length ≤ (rsplitHead l).length + t.length := Nat.le_add_right _ _
    _ = l.length := by rw [← List.length_append, ← ht]

theorem hds_rsplitHead {l : List Char} (h : hasDoubleSpace l = false) :
    hasDoubleSpace (rsplitHead l) = false := by
  obtain ⟨t, ht⟩ := rsplitHead_append_eq l
  exact hds_left_of_append (t := t) (by rwa [← ht])

theorem hds_append_left {w r : List Char} (hw : ∀ c ∈ w, pyIsSpace c = false) :
    hasDoubleSpace (w ++ r) = hasDoubleSpace r := by
  induction w with
  | nil => rfl
  | cons a w' ih =>
      have ha : pyIsSpace a = false := hw a (List.mem_cons_self _ _)
      have hw' : ∀ c ∈ w', pyIsSpace c = false := fun c hc => hw c (List.mem_cons_of_mem _ hc)
      cases hwr : w' ++ r with
      | nil =>
          obtain ⟨hw0, hr0⟩ := List.append_eq_nil.mp hwr
          subst hw0
          subst hr0
          rfl
      | cons b t2 =>
          rw [List.cons_append, hwr]
          show hasDoubleSpace (a :: b :: t2) = hasDoubleSpace r
          have : hasDoubleSpace (b :: t2) = hasDoubleSpace r := by
            rw [← hwr]
            exact ih hw'
          simp [hasDoubleSpace, ha, this]

theorem hds_of_nonspace {w : List Char} (hw : ∀ c ∈ w, pyIsSpace c = false) :
    hasDoubleSpace w = false := by
  have := hds_append_left (r := ([] : List Char)) hw
  simpa using this

theorem hds_cons_tail {a : Char} {l : List Char} (h : hasDoubleSpace (a :: l) = false) :
    hasDoubleSpace l = false := by
  cases l with
  | nil => rfl
  | cons b t =>
      simp only [hasDoubleSpace, Bool.or_eq_false_iff] at h
      exact h.2

theorem hds_append_right {x r : List Char} (hx : hasDoubleSpace x = false)
    (hr : ∀ c ∈ r, pyIsSpace c = false) : hasDoubleSpace (x ++ r) = false := by
  induction x with
  | nil => simpa using hds_of_nonspace hr
  | cons a x' ih =>
      have hx' : hasDoubleSpace x' = false := hds_cons_tail hx
      cases hxr : x' ++ r with
      | nil => rw [List.cons_append, hxr]; rfl
      | cons b t2 =>
          rw [List.cons_append, hxr]
          show hasDoubleSpace (a :: b :: t2) = false
          have h2 : hasDoubleSpace (b :: t2) = false := by
            rw [← hxr]
            exact ih hx'
          cases x' with
          | nil =>
              have hrb : r = b :: t2 := by simpa using hxr
              have hb : pyIsSpace b = false := hr b (by rw [hrb]; exact List.mem_cons_self _ _)
              simp [hasDoubleSpace, hb, h2]
          | cons a2 x'' =>
              have hb : a2 = b := by
                rw [List.cons_append] at hxr
                exact (List.cons.inj hxr).1
              subst hb
              have hpair : (pyIsSpace a && pyIsSpace a2) = false := by
                simp only [hasDoubleSpace, Bool.or_eq_false_iff] at hx
                exact hx.1
              simp [hasDoubleSpace, hpair, h2]

theorem splitWsAux_words {l : List Char} :
    ∀ {acc : List Char}, (∀ c ∈ acc, pyIsSpace c = false) →
      ∀ w ∈ splitWsAux l acc, w ≠ [] ∧ ∀ c ∈ w, pyIsSpace c = false := by
  induction l with
  | nil =>
      intro acc hacc w hw
      simp only [splitWsAux] at hw
      by_cases h : acc = []
      · simp [h] at hw
      · simp only [h, if_neg, ite_false, List.mem_singleton] at hw
        subst hw
        refine ⟨by simpa using h, ?_⟩
        intro c hc
        exact hacc c (by simpa using hc)
  | cons c t ih =>
      intro acc hacc w hw
      simp only [splitWsAux] at hw
      by_cases hsp : pyIsSpace c = true
      · rw [if_pos hsp] at hw
        by_cases hacc0 : acc = []
        · rw [if_pos hacc0] at hw
          exact ih (by simp) w hw
        · rw [if_neg hacc0] at hw
          rcases List.mem_cons.mp hw with hw1 | hw2
          · subst hw1
            refine ⟨by simpa using hacc0, ?_⟩
            intro x hx
            exact hacc x (by simpa using hx)
          · exact ih (by simp) w hw2
      · rw [if_neg hsp] at hw
        have hspf : pyIsSpace c = false := by simpa using hsp
        refine ih ?_ w hw
        intro x hx
        rcases List.mem_cons.mp hx with rfl | hx2
        · exact hspf
        · exact hacc x hx2

theorem joinWords_head_nonspace {ws : List (List Char)}
    (hne : ∀ w ∈ ws, w ≠ []) (hsp : ∀ w ∈ ws, ∀ c ∈ w, pyIsSpace c = false)
    (h0 : ws ≠ []) :
    ∃ c t, joinWords ws = c :: t ∧ pyIsSpace c = false := by
  cases ws with
  | nil => exact absurd rfl h0
  | cons w ws' =>
      cases hw : w with
      | nil => exact absurd hw (hne w (List.mem_cons_self _ _))
      | cons c wt =>
          have hc : pyIsSpace c = false :=
            hsp w (List.mem_cons_self _ _) c (by rw [hw]; exact List.mem_cons_self _ _)
          cases ws' with
          | nil => exact ⟨c, wt, by simp [joinWords, hw], hc⟩
          | cons w2 ws'' =>
              exact ⟨c, wt ++ ' ' :: joinWords (w2 :: ws''),
                by simp [joinWords, hw], hc⟩

theorem joinWords_hds {ws : List (List Char)}
    (hne : ∀ w ∈ ws, w ≠ []) (hsp : ∀ w ∈ ws, ∀ c ∈ w, pyIsSpace c = false) :
    hasDoubleSpace (joinWords ws) = false := by
  induction ws with
  | nil => rfl
  | cons w ws' ih =>
      cases ws' with
      | nil =>
          show hasDoubleSpace (joinWords [w]) = false
          simpa [joinWords] using hds_of_nonspace (hsp w (List.mem_cons_self _ _))
      | cons w2 ws'' =>
          have hne' : ∀ v ∈ w2 :: ws'', v ≠ [] :=
            fun v hv => hne v (List.mem_cons_of_mem _ hv)
          have hsp' : ∀ v ∈ w2 :: ws'', ∀ c ∈ v, pyIsSpace c = false :=
            fun v hv => hsp v (List.mem_cons_of_mem _ hv)
          obtain ⟨c, t2, hj, hc⟩ :=
            joinWords_head_nonspace hne' hsp' (List.cons_ne_nil _ _)
          have hjoin : joinWords (w :: w2 :: ws'') = w ++ ' ' :: joinWords (w2 :: ws'') := rfl
          rw [hjoin, hds_append_left (hsp w (List.mem_cons_self _ _)), hj]
          have h2 : hasDoubleSpace (c :: t2) = false := by
            rw [← hj]
            exact ih hne' hsp'
          simp [hasDoubleSpace, hc, h2]

theorem splitWs_words (l : List Char) :
    ∀ w ∈ splitWs l, w ≠ [] ∧ ∀ c ∈ w, pyIsSpace c = false :=
  fun w hw => splitWsAux_words (by simp) w hw

theorem generateSessionTitle_eq (msg : String) (maxLength : ℕ) :
    generateSessionTitle msg maxLength =
      if (if maxLength < (joinWords (splitWs (pyStrip msg.data))).length then
            rsplitHead ((joinWords (splitWs (pyStrip msg.data))).take maxLength)
              ++ ['.', '.', '.']
          else joinWords (splitWs (pyStrip msg.data))) = [] then "New Chat"
      else String.mk (if maxLength < (joinWords (splitWs (pyStrip msg.data))).length then
            rsplitHead ((joinWords (splitWs (pyStrip msg.data))).take maxLength)
              ++ ['.', '.', '.']
          else joinWords (splitWs (pyStrip msg.data))) := rfl

theorem generateSessionTitle_length_le (msg : String) :
    (generateSessionTitle msg 50).length ≤ 53 := by
  rw [generateSessionTitle_eq]
  by_cases hlen : 50 < (joinWords (splitWs (pyStrip msg.data))).length
  · rw [if_pos hlen]
    by_cases he : rsplitHead ((joinWords (splitWs (pyStrip msg.data))).take 50)
        ++ ['.', '.', '.'] = []
    · rw [if_pos he]
      decide
    · rw [if_neg he]
      show (rsplitHead ((joinWords (splitWs (pyStrip msg.data))).take 50)
          ++ ['.', '.', '.']).length ≤ 53
      rw [List.length_append]
      have h1 := rsplitHead_length_le ((joinWords (splitWs (pyStrip msg.data))).take 50)
      have h2 : ((joinWords (splitWs (pyStrip msg.data))).take 50).length ≤ 50 :=
        List.length_take_le _ _
      simp only [List.length_cons, List.length_nil]
      omega
  · rw [if_neg hlen]
    by_cases he : joinWords (splitWs (pyStrip msg.data)) = []
    · rw [if_pos he]
      decide
    · rw [if_neg he]
      show (joinWords (splitWs (pyStrip msg.data))).length ≤ 53
      omega

theorem generateSessionTitle_hds (msg : String) :
    hasDoubleSpace (generateSessionTitle msg 50).data = false := by
  rw [generateSessionTitle_eq]
  have hne : ∀ w ∈ splitWs (pyStrip msg.data), w ≠ [] :=
    fun w hw => (splitWs_words _ w hw).1
  have hsp : ∀ w ∈ splitWs (pyStrip msg.data), ∀ c ∈ w, pyIsSpace c = false :=
    fun w hw => (splitWs_words _ w hw).2
  have hcol : hasDoubleSpace (joinWords (splitWs (pyStrip msg.data))) = false :=
    joinWords_hds hne hsp
  by_cases hlen : 50 < (joinWords (splitWs (pyStrip msg.data))).length
  · rw [if_pos hlen]
    have h1 := hds_take 50 hcol
    have h2 := hds_rsplitHead h1
    have h3 : hasDoubleSpace (rsplitHead ((joinWords (splitWs (pyStrip msg.data))).take 50)
        ++ ['.', '.', '.']) = false :=
      hds_append_right h2 (by decide)
    by_cases he : rsplitHead ((joinWords (splitWs (pyStrip msg.data))).take 50)
        ++ ['.', '.', '.'] = []
    · rw [if_pos he]
      decide
    · rw [if_neg he]
      exact h3
  · rw [if_neg hlen]
    by_cases he : joinWords (splitWs (pyStrip msg.data)) = []
    · rw [if_pos he]
      decide
    · rw [if_neg he]
      exact hcol

/-- Counterexample to claim C5: the truncation is not capped at the
50-character maximum.  For a 51-character single word the derived title is
the first 50 characters (no space to cut at) plus `"..."`: 53 characters. -/
theorem sessionTitle_maxlength_counterexample :
    50 < (generateSessionTitle (String.mk (List.replicate 51 'a')) 50).length := by
  decide

/-- Claim C5 (amended): the title is overwritten only while it still equals
the sentinel "New Chat", so once a non-sentinel title is set no later message
changes it; the derived title collapses whitespace runs to single spaces
(never two adjacent whitespace characters), falls back to the sentinel when
the collapsed text is empty, and truncation cuts at the last space within the
first 50 characters and appends an ellipsis, bounding the result by 53 — not
50 — characters. -/
theorem sessionTitle_amended (db : ChatDB) (sid : String) (s : ChatSessionRow)
    (msg : String) (now : ℚ) :
    (db.sessions.find? (fun t => t.id == sid) = some s → s.title ≠ "New Chat" →
      updateSessionTitle db sid msg now = db) ∧
    (joinWords (splitWs (pyStrip msg.data)) = [] →
      generateSessionTitle msg 50 = "New Chat") ∧
    (generateSessionTitle msg 50).length ≤ 53 ∧
    hasDoubleSpace (generateSessionTitle msg 50).data = false := by
  refine ⟨?_, ?_, generateSessionTitle_length_le msg, generateSessionTitle_hds msg⟩
  · intro hfind hne
    simp [updateSessionTitle, hfind, hne]
  · intro hcol
    simp [generateSessionTitle, hcol]

/-- Witness for C5 (amended): a session already titled "My title" is not
renamed, and the all-whitespace message "   " derives the sentinel. -/
theorem sessionTitle_amended_witness :
    (updateSessionTitle ⟨[⟨"s", 7, "My title", 0, none, none⟩], []⟩ "s" "   " 1
      = ⟨[⟨"s", 7, "My title", 0, none, none⟩], []⟩) ∧
    (generateSessionTitle "   " 50 = "New Chat") ∧
    (generateSessionTitle "   " 50).length ≤ 53 ∧
    hasDoubleSpace (generateSessionTitle "   " 50).data = false :=
  ⟨(sessionTitle_amended ⟨[⟨"s", 7, "My title", 0, none, none⟩], []⟩ "s"
      ⟨"s", 7, "My title", 0, none, none⟩ "   " 1).1 (by decide) (by decide),
   (sessionTitle_amended ⟨[⟨"s", 7, "My title", 0, none, none⟩], []⟩ "s"
      ⟨"s", 7, "My title", 0, none, none⟩ "   " 1).2.1 (by decide),
   (sessionTitle_amended ⟨[⟨"s", 7, "My title", 0, none, none⟩], []⟩ "s"
      ⟨"s", 7, "My title", 0, none, none⟩ "   " 1).2.2.1,
   (sessionTitle_amended ⟨[⟨"s", 7, "My title", 0, none, none⟩], []⟩ "s"
      ⟨"s", 7, "My title", 0, none, none⟩ "   " 1).2.2.2⟩
